import Mathlib

/-!
Verification model of the `BucketProvider` service
(`src/bucket-provider.service.ts` and its variant `src/unnamed/part_001`).

The service normalizes a polymorphic file input (base64 string or
`{ path: string }` object) into a byte source, uploads it to an S3-style
bucket, and offers presigned-URL generation, deletion, and retrieval as a
base64 string.  Backend calls are modelled as explicit behaviour
parameters (`Except` outcomes), and the `ResponseMsgService` collaborator
as a trace of notifier events.
-/

namespace BucketProvider

/-! ### JS string and regex model

Strings are modelled as their character lists.  JavaScript's `.` (without
the `s` flag) matches any character except a line terminator
(`\n`, `\r`, U+2028, U+2029). -/

/-- JavaScript line terminators, which `.` in a regex never matches. -/
def isJsLineTerminator (c : Char) : Bool :=
  c = '\n' || c = '\r' || c.toNat = 0x2028 || c.toNat = 0x2029

/-- JS `\w` character class (`[A-Za-z0-9_]`) together with `+`, i.e. the
class `[\w+]` used by the service's image data-URI regex. -/
def isWordOrPlus (c : Char) : Bool :=
  c.isAlpha || c.isDigit || c = '_' || c = '+'

/-- Drop an expected literal from the front of a character list; `none`
when the list does not start with the literal. -/
def dropLit : List Char → List Char → Option (List Char)
  | [], l => some l
  | _ :: _, [] => none
  | p :: ps, c :: cs => if c = p then dropLit ps cs else none

/-- `s.match(/,(.*)$/)`'s capture group: the regex matches at the leftmost
comma whose entire suffix contains no JS line terminator (since `.` cannot
cross one and `$` anchors at the end of the string), and captures that
suffix. -/
def commaCapture : List Char → Option (List Char)
  | [] => none
  | c :: rest =>
      if c = ',' ∧ (∀ x ∈ rest, isJsLineTerminator x = false) then some rest
      else commaCapture rest

/-- The match of `/^data:image\/([\w+]+);base64,([\s\S]+)/` on a character
list, returning the second capture group (the payload) when the regex
matches: the literal `data:image/`, a non-empty maximal run of `[\w+]`
characters (maximality is exact because `;` is outside the class), the
literal `;base64,`, and a non-empty remainder (which `[\s\S]+` consumes
whole). -/
def dataUriPayload (l : List Char) : Option (List Char) :=
  match dropLit "data:image/".data l with
  | none => none
  | some rest =>
      if rest.takeWhile isWordOrPlus = [] then none
      else
        match dropLit ";base64,".data (rest.dropWhile isWordOrPlus) with
        | none => none
        | some payload => if payload = [] then none else some payload

/-- Whether `base64Reg = /^data:image\/([\w+]+);base64,([\s\S]+)/` matches
the string (line 40 of the service; the match is only used as a boolean). -/
def imageDataUriMatch (s : String) : Bool :=
  (dataUriPayload s.data).isSome

/-! ### Node `Buffer.from(string, 'base64')`

Node's base64 decoder is permissive: characters outside the base64
alphabet (standard and URL-safe) are skipped, a `=` stops decoding, and
leftover bits of a trailing partial group are dropped. -/

/-- Value of a base64 alphabet character (standard plus URL-safe), `none`
for characters Node's decoder skips. -/
def b64Val (c : Char) : Option Nat :=
  if 'A' ≤ c ∧ c ≤ 'Z' then some (c.toNat - 65)
  else if 'a' ≤ c ∧ c ≤ 'z' then some (c.toNat - 71)
  else if '0' ≤ c ∧ c ≤ '9' then some (c.toNat + 4)
  else if c = '+' ∨ c = '-' then some 62
  else if c = '/' ∨ c = '_' then some 63
  else none

/-- The sextet stream Node extracts: invalid characters skipped, `=`
terminates. -/
def b64Sextets : List Char → List Nat
  | [] => []
  | c :: rest =>
      if c = '=' then []
      else
        match b64Val c with
        | some v => v :: b64Sextets rest
        | none => b64Sextets rest

/-- Repack 6-bit groups into bytes; a trailing partial group yields only
its complete bytes (2 sextets → 1 byte, 3 sextets → 2 bytes). -/
def sextetsToBytes : List Nat → List Nat
  | c0 :: c1 :: c2 :: c3 :: rest =>
      (c0 * 4 + c1 / 16) :: ((c1 % 16) * 16 + c2 / 4) ::
        ((c2 % 4) * 64 + c3) :: sextetsToBytes rest
  | [c0, c1, c2] => [c0 * 4 + c1 / 16, (c1 % 16) * 16 + c2 / 4]
  | [c0, c1] => [c0 * 4 + c1 / 16]
  | _ => []

/-- `Buffer.from(⟨l⟩, 'base64')` as a byte list. -/
def nodeBase64Decode (l : List Char) : List Nat :=
  sextetsToBytes (b64Sextets l)

/-! ### Base64 encoding (`Body.transformToString('base64')`) -/

/-- Standard base64 alphabet character for a sextet value. -/
def b64Char (n : Nat) : Char :=
  if n < 26 then Char.ofNat (65 + n)
  else if n < 52 then Char.ofNat (71 + n)
  else if n < 62 then Char.ofNat (n - 4)
  else if n = 62 then '+'
  else '/'

/-- RFC 4648 base64 encoding with padding, over a byte list. -/
def b64EncodeCore : List Nat → List Char
  | b0 :: b1 :: b2 :: rest =>
      b64Char (b0 / 4) :: b64Char ((b0 % 4) * 16 + b1 / 16) ::
        b64Char ((b1 % 16) * 4 + b2 / 64) :: b64Char (b2 % 64) ::
        b64EncodeCore rest
  | [b0, b1] =>
      [b64Char (b0 / 4), b64Char ((b0 % 4) * 16 + b1 / 16),
       b64Char ((b1 % 16) * 4), '=']
  | [b0] => [b64Char (b0 / 4), b64Char ((b0 % 4) * 16), '=', '=']
  | [] => []

/-- Base64 encoding of a byte list as a string. -/
def base64Encode (bytes : List Nat) : String :=
  String.mk (b64EncodeCore bytes)

/-! ### Data model -/

/-- The `file` parameter of `uploadFile`: `string | { path: string }`. -/
inductive FileInput
  | str (s : String)
  | obj (path : String)
  deriving DecidableEq, Repr

/-- The `fileStream` local of `uploadFile`: `Buffer | fs.ReadStream`. -/
inductive FileStream
  | stream (path : String)
  | buffer (bytes : List Nat)
  deriving DecidableEq, Repr

deriving instance DecidableEq for Except

/-- `Buffer.from(file, 'base64')` with `file` still the object (reached
when the object's `path` is falsy): Node throws this `TypeError`. -/
def bufferFromObjectTypeError : String :=
  "The first argument must be of type string or an instance of Buffer, ArrayBuffer, or Array or an Array-like Object. Received an instance of Object"

/-- Lines 40–54 of `uploadFile`: compute `match`, then either open a read
stream from `file.path` or build a base64-decoded buffer from the string
(taking the capture of `/,(.*)$/` when it matches, the whole string
otherwise).  A non-string reaching the buffer branch (object with falsy
`path`) makes `Buffer.from` throw, modelled as `Except.error`. -/
def uploadNormalize (file : FileInput) : Except String FileStream :=
  let m : Bool :=
    match file with
    | .str s => imageDataUriMatch s
    | .obj _ => false
  let objWithPath : Bool :=
    match file with
    | .str _ => false
    | .obj p => p != ""
  if !m && objWithPath then
    Except.ok (FileStream.stream
      (match file with | .obj p => p | .str _ => ""))
  else
    match file with
    | .str s =>
        let fileData : List Char :=
          match commaCapture s.data with
          | some t => t
          | none => s.data
        Except.ok (FileStream.buffer (nodeBase64Decode fileData))
    | .obj _ => Except.error bufferFromObjectTypeError

/-! ### Notifier (`ResponseMsgService`) trace -/

/-- One call into the `ResponseMsgService` collaborator. -/
inductive NotifierEvent
  | addSuccessMsg (message msgType : String) (show_ : Bool)
  | addErrorMsg (message msgType : String) (show_ : Bool)
  | isSuccess (b : Bool)
  deriving DecidableEq, Repr

/-- Message-recording events of a trace (success or error messages). -/
def msgEvents (tr : List NotifierEvent) : List NotifierEvent :=
  tr.filter fun e =>
    match e with
    | .addSuccessMsg .. => true
    | .addErrorMsg .. => true
    | .isSuccess _ => false

/-- Values passed to `isSuccess` in a trace, in order. -/
def flagEvents (tr : List NotifierEvent) : List Bool :=
  tr.filterMap fun e =>
    match e with
    | .isSuccess b => some b
    | _ => none

/-! ### Storage operations

Each backend call is a behaviour parameter returning `Except` (an
exception's `.message`, or the call's result). -/

/-- The `uploadParams` record handed to `new Upload({...})`. -/
structure UploadParams where
  bucket : String
  key : String
  body : FileStream
  contentType : String
  deriving DecidableEq, Repr

/-- Lines 57–62: build `uploadParams` from the normalized stream (or
propagate the normalization `TypeError`). -/
def uploadParamsOf (bucketName : String) (file : FileInput)
    (fileName contentType : String) : Except String UploadParams :=
  match uploadNormalize file with
  | .error e => .error e
  | .ok fileStream =>
      .ok { bucket := bucketName, key := fileName, body := fileStream,
            contentType := contentType }

/-- Result of `uploadFile`: `{ status: true, url, fileName }` or `false`. -/
inductive UploadResult
  | success (url : String) (fileName : String)
  | failure
  deriving DecidableEq, Repr

/-- Whether an upload result is the structured success (not `false`). -/
def UploadResult.isSuccessResult : UploadResult → Bool
  | .success _ _ => true
  | .failure => false

/-- `uploadFile(file, fileName, contentType)` (lines 35–84).  `upBeh`
models `new Upload({client, params}).done()`: the reported `Location` or a
thrown error's message.  The returned `Except.error` case is the
uncaught normalization `TypeError` (the try/catch wraps only the upload
call). -/
def uploadFile (bucketName : String) (file : FileInput)
    (fileName contentType : String)
    (upBeh : UploadParams → Except String String) :
    Except String (UploadResult × List NotifierEvent) :=
  match uploadParamsOf bucketName file fileName contentType with
  | .error e => .error e
  | .ok params =>
      match upBeh params with
      | .ok location =>
          .ok (.success location fileName,
            [.addSuccessMsg "File uploaded successfully." "success" true,
             .isSuccess true])
      | .error msg =>
          .ok (.failure,
            [.addErrorMsg msg "error" true, .isSuccess false])

/-- The request handed to `getSignedUrl`: the `GetObjectCommand` params
plus the `expiresIn` option. -/
structure SignRequest where
  bucket : String
  key : String
  expiresIn : Nat
  deriving DecidableEq, Repr

/-- The `expiresIn = 10` default of `getPresignedUrlOfFile` (the variant
without the parameter hardcodes `{ expiresIn: 10 }`). -/
def presignDefaultExpiry : Nat := 10

/-- The signing request built from `getParams` and `expiresIn`. -/
def presignRequestOf (bucketName path : String) (expiresIn : Nat) :
    SignRequest :=
  { bucket := bucketName, key := path, expiresIn := expiresIn }

/-- Result of `getPresignedUrlOfFile`: the URL string or `false`. -/
inductive PresignResult
  | url (u : String)
  | failure
  deriving DecidableEq, Repr

/-- Whether a presign result is a URL (not `false`). -/
def PresignResult.isSuccessResult : PresignResult → Bool
  | .url _ => true
  | .failure => false

/-- `getPresignedUrlOfFile(path, expiresIn = 10)` (lines 91–110 of the
service; the `part_001` variant takes `expiresIn` with default 10).
`signBeh` models `getSignedUrl(this.s3, command, { expiresIn })`. -/
def getPresignedUrlOfFile (bucketName path : String) (expiresIn : Nat)
    (signBeh : SignRequest → Except String String) :
    PresignResult × List NotifierEvent :=
  match signBeh (presignRequestOf bucketName path expiresIn) with
  | .ok u => (.url u, [.isSuccess true])
  | .error m =>
      (.failure,
       [.isSuccess false,
        .addErrorMsg ("Could not retrieve file from S3: " ++ m) "error" true])

/-- `deleteFile(fileName)` (lines 117–140).  `delBeh` models the
delete-object call's outcome. -/
def deleteFile (fileName : String) (delBeh : Except String Unit) :
    Bool × List NotifierEvent :=
  match delBeh with
  | .ok _ =>
      (true,
       [.addSuccessMsg "File Deleted successfully." "success" true,
        .isSuccess true])
  | .error m =>
      (false,
       [.addErrorMsg m "error" true, .isSuccess false])

/-- Result of `getFile`: the base64-encoded content or `false`. -/
inductive GetFileResult
  | content (s : String)
  | failure
  deriving DecidableEq, Repr

/-- Whether a fetch result is content (not `false`). -/
def GetFileResult.isSuccessResult : GetFileResult → Bool
  | .content _ => true
  | .failure => false

/-- `getFile(fileName)` (lines 148–166).  `sendBeh` models
`this.s3.send(new GetObjectCommand(getParams))`, yielding the body (as
the bytes it would deliver); `drainBeh` models the subsequent fallible
`await Body.transformToString('base64')`, which on success re-encodes
the body.  In the source `isSuccess(true)` is emitted *between* the two
awaits and both are inside the try, so a drain failure lands in the
catch after the success flag was already set: that completion sets the
flag twice (`true`, then `false`) and returns `false`. -/
def getFile (fileName : String) (sendBeh : Except String (List Nat))
    (drainBeh : Except String Unit) : GetFileResult × List NotifierEvent :=
  match sendBeh with
  | .error m =>
      (.failure,
       [.isSuccess false,
        .addErrorMsg ("Could not retrieve file from S3: " ++ m) "error" true])
  | .ok body =>
      match drainBeh with
      | .ok _ => (.content (base64Encode body), [.isSuccess true])
      | .error m =>
          (.failure,
           [.isSuccess true, .isSuccess false,
            .addErrorMsg ("Could not retrieve file from S3: " ++ m) "error"
              true])

/-! ### Key-to-bytes store backend (for the round-trip claim) -/

/-- A bucket modelled as a key-to-bytes association list. -/
abbrev Store := List (String × List Nat)

/-- Bytes of a byte source: a buffer's bytes, or the contents of the file
at a stream's path (via an explicit filesystem map). -/
def FileStream.bytes (fsContents : String → List Nat) :
    FileStream → List Nat
  | .stream p => fsContents p
  | .buffer bs => bs

/-- A store after an upload: the params' body's bytes stored under the
params' key. -/
def storePut (st : Store) (params : UploadParams)
    (fsContents : String → List Nat) : Store :=
  (params.key, params.body.bytes fsContents) :: st

/-- Lookup in the store. -/
def storeGet (st : Store) (key : String) : Option (List Nat) :=
  match st with
  | [] => none
  | kv :: rest => if kv.1 = key then some kv.2 else storeGet rest key

/-- The get-object behaviour a store backend exhibits. -/
def storeGetBeh (st : Store) (key : String) : Except String (List Nat) :=
  match storeGet st key with
  | some bs => .ok bs
  | none => .error "NoSuchKey"

/-! ### Helper lemmas on the regex models -/

theorem dropLit_append (p l : List Char) : dropLit p (p ++ l) = some l := by
  induction p with
  | nil => rfl
  | cons c cs ih => simpa [dropLit] using ih

theorem takeWhile_append_of (p : Char → Bool) (l₁ : List Char) (c : Char)
    (l₂ : List Char) (h₁ : ∀ x ∈ l₁, p x = true) (hc : p c = false) :
    (l₁ ++ c :: l₂).takeWhile p = l₁ := by
  induction l₁ with
  | nil => simp [List.takeWhile_cons, hc]
  | cons a as ih =>
      have ha : p a = true := h₁ a (by simp)
      simp only [List.cons_append, List.takeWhile_cons, ha, if_true]
      exact congrArg (a :: ·) (ih (fun x hx => h₁ x (by simp [hx])))

theorem dropWhile_append_of (p : Char → Bool) (l₁ : List Char) (c : Char)
    (l₂ : List Char) (h₁ : ∀ x ∈ l₁, p x = true) (hc : p c = false) :
    (l₁ ++ c :: l₂).dropWhile p = c :: l₂ := by
  induction l₁ with
  | nil => simp [List.dropWhile_cons, hc]
  | cons a as ih =>
      have ha : p a = true := h₁ a (by simp)
      simp only [List.cons_append, List.dropWhile_cons, ha, if_true]
      exact ih (fun x hx => h₁ x (by simp [hx]))

/-- The data-URI regex succeeds on any well-formed decomposition and
captures exactly the payload. -/
theorem dataUriPayload_append (sub payload : List Char)
    (hsub : sub ≠ []) (hw : ∀ c ∈ sub, isWordOrPlus c = true)
    (hp : payload ≠ []) :
    dataUriPayload ("data:image/".data ++ sub ++ ";base64,".data ++ payload)
      = some payload := by
  have hsemi : isWordOrPlus ';' = false := by decide
  have hcons : (";base64,".data : List Char) ++ payload
      = ';' :: ("base64,".data ++ payload) := rfl
  unfold dataUriPayload
  simp only [List.append_assoc]
  rw [dropLit_append, hcons]
  simp only [takeWhile_append_of isWordOrPlus sub ';'
               ("base64,".data ++ payload) hw hsemi,
             dropWhile_append_of isWordOrPlus sub ';'
               ("base64,".data ++ payload) hw hsemi,
             if_neg hsub]
  rw [hcons.symm, dropLit_append]
  simp [hp]

/-- `/,(.*)$/` captures the suffix of the first comma whose suffix is free
of line terminators, provided every earlier comma is followed by one. -/
theorem commaCapture_append_of_clean (pre t : List Char)
    (hpre : ∀ l₁ l₂, pre = l₁ ++ ',' :: l₂ →
      ∃ c ∈ l₂ ++ ',' :: t, isJsLineTerminator c = true)
    (ht : ∀ c ∈ t, isJsLineTerminator c = false) :
    commaCapture (pre ++ ',' :: t) = some t := by
  induction pre with
  | nil =>
      show commaCapture (',' :: t) = some t
      rw [commaCapture, if_pos ⟨rfl, ht⟩]
  | cons a pre ih =>
      rw [List.cons_append, commaCapture, if_neg]
      · exact ih (fun l₁ l₂ h => hpre (a :: l₁) l₂ (by rw [h, List.cons_append]))
      · rintro ⟨ha, hclean⟩
        obtain ⟨c, hc, hterm⟩ := hpre [] pre (by rw [ha]; rfl)
        exact absurd (hclean c hc) (by simp [hterm])

/-- `/,(.*)$/` fails when every comma is followed by a line terminator. -/
theorem commaCapture_eq_none (l : List Char)
    (h : ∀ l₁ l₂, l = l₁ ++ ',' :: l₂ →
      ∃ c ∈ l₂, isJsLineTerminator c = true) :
    commaCapture l = none := by
  induction l with
  | nil => rfl
  | cons a rest ih =>
      rw [commaCapture, if_neg]
      · exact ih (fun l₁ l₂ hl => h (a :: l₁) l₂ (by rw [hl, List.cons_append]))
      · rintro ⟨ha, hclean⟩
        obtain ⟨c, hc, hterm⟩ := h [] rest (by rw [ha]; rfl)
        exact absurd (hclean c hc) (by simp [hterm])

/-- The string branch of the normalization (lines 47–53): the decoded
buffer of the comma capture, or of the whole string when the regex fails. -/
theorem uploadNormalize_str (s : String) :
    uploadNormalize (.str s)
      = .ok (.buffer (nodeBase64Decode ((commaCapture s.data).getD s.data))) := by
  unfold uploadNormalize
  cases h : commaCapture s.data <;> simp [h]

/-- The staged-file branch (lines 44–45): a truthy `path` yields a read
stream. -/
theorem uploadNormalize_obj (p : String) (hp : p ≠ "") :
    uploadNormalize (.obj p) = .ok (.stream p) := by
  unfold uploadNormalize
  simp [hp]

/-! ### Claims C1–C4: the input normalization -/

/-- **C1** (amended).  For a string input of the image data-URI form
`data:image/<subtype>;base64,<payload>` whose payload contains no JS line
terminator, the byte buffer passed to the storage upload is the base64
decoding of the payload alone (the substring after the separating comma),
not of the whole string.  The line-terminator restriction is forced by the
counterexample below: the extraction regex `/,(.*)$/` cannot match across
a newline. -/
theorem uploadFile_imageDataUri_decodes_payload
    (sub payload : String)
    (hsub : sub.data ≠ []) (hw : ∀ c ∈ sub.data, isWordOrPlus c = true)
    (hpay : payload.data ≠ [])
    (hnl : ∀ c ∈ payload.data, isJsLineTerminator c = false) :
    imageDataUriMatch ("data:image/" ++ sub ++ ";base64," ++ payload) = true ∧
    uploadNormalize (.str ("data:image/" ++ sub ++ ";base64," ++ payload))
      = .ok (.buffer (nodeBase64Decode payload.data)) := by
  have hdata : ("data:image/" ++ sub ++ ";base64," ++ payload).data
      = "data:image/".data ++ sub.data ++ ";base64,".data ++ payload.data := by
    simp [String.data_append]
  have hnc : ',' ∉ ("data:image/".data ++ sub.data ++ ";base64".data :
      List Char) := by
    intro hmem
    rcases List.mem_append.mp hmem with h | h
    · rcases List.mem_append.mp h with h' | h'
      · exact absurd h' (by decide)
      · exact absurd (hw ',' h') (by decide)
    · exact absurd h (by decide)
  have hsplit : ("data:image/".data ++ sub.data ++ ";base64,".data ++
        payload.data : List Char)
      = ("data:image/".data ++ sub.data ++ ";base64".data) ++
        ',' :: payload.data := by
    simp only [show (";base64,".data : List Char) = ";base64".data ++ [',']
      from rfl, List.append_assoc, List.cons_append, List.nil_append]
  have hcap : commaCapture ("data:image/" ++ sub ++ ";base64," ++
      payload).data = some payload.data := by
    rw [hdata, hsplit]
    apply commaCapture_append_of_clean
    · intro l₁ l₂ heq
      exfalso
      apply hnc
      rw [heq]
      exact List.mem_append.mpr (Or.inr (List.mem_cons_self _ _))
    · exact hnl
  constructor
  · rw [imageDataUriMatch, hdata,
        dataUriPayload_append sub.data payload.data hsub hw hpay]
    rfl
  · rw [uploadNormalize_str, hcap]
    rfl

/-- **C1** counterexample.  `"data:image/png;base64,A\nB"` matches the
image data-URI pattern, yet the buffer is the decode of the whole string
(15 bytes), not of the payload `"A\nB"` (1 byte): no comma of the string
has a newline-free suffix, so `/,(.*)$/` fails and the whole string is
decoded. -/
theorem uploadFile_imageDataUri_newline_payload_cex :
    imageDataUriMatch "data:image/png;base64,A\nB" = true ∧
    uploadNormalize (.str "data:image/png;base64,A\nB")
      ≠ .ok (.buffer (nodeBase64Decode "A\nB".data)) ∧
    uploadNormalize (.str "data:image/png;base64,A\nB")
      = .ok (.buffer (nodeBase64Decode "data:image/png;base64,A\nB".data)) := by
  refine ⟨by decide, by decide, by decide⟩

theorem uploadFile_imageDataUri_decodes_payload_witness :
    imageDataUriMatch ("data:image/" ++ "png" ++ ";base64," ++ "QUJD")
      = true ∧
    uploadNormalize (.str ("data:image/" ++ "png" ++ ";base64," ++ "QUJD"))
      = .ok (.buffer (nodeBase64Decode "QUJD".data)) :=
  uploadFile_imageDataUri_decodes_payload "png" "QUJD" (by decide) (by decide)
    (by decide) (by decide)

/-- **C2** (amended).  For a string not matching the image data-URI
pattern: if some comma is followed by no JS line terminator, the decoded
payload is the substring after the first such comma (first conjunct, with
`pre` the part before it); when every comma is followed by a line
terminator — in particular for comma-free strings — the whole string is
decoded (second conjunct).  The original "first comma" claim is false when
a newline follows it, see the counterexample. -/
theorem uploadFile_comma_split_needs_clean_suffix :
    (∀ pre t : List Char,
        imageDataUriMatch (String.mk (pre ++ ',' :: t)) = false →
        (∀ l₁ l₂, pre = l₁ ++ ',' :: l₂ →
           ∃ c ∈ l₂ ++ ',' :: t, isJsLineTerminator c = true) →
        (∀ c ∈ t, isJsLineTerminator c = false) →
        uploadNormalize (.str (String.mk (pre ++ ',' :: t)))
          = .ok (.buffer (nodeBase64Decode t))) ∧
    (∀ l : List Char,
        imageDataUriMatch (String.mk l) = false →
        (∀ l₁ l₂, l = l₁ ++ ',' :: l₂ →
           ∃ c ∈ l₂, isJsLineTerminator c = true) →
        uploadNormalize (.str (String.mk l))
          = .ok (.buffer (nodeBase64Decode l))) := by
  constructor
  · intro pre t _hm hpre ht
    have hd : (String.mk (pre ++ ',' :: t)).data = pre ++ ',' :: t := rfl
    have hcap : commaCapture (String.mk (pre ++ ',' :: t)).data = some t := by
      rw [hd]
      exact commaCapture_append_of_clean pre t hpre ht
    rw [uploadNormalize_str, hcap]
    rfl
  · intro l _hm hl
    have hd : (String.mk l).data = l := rfl
    have hcap : commaCapture (String.mk l).data = none := by
      rw [hd]
      exact commaCapture_eq_none l hl
    rw [uploadNormalize_str, hcap]
    rfl

/-- **C2** counterexample.  `"QQ,B\nC"` has no image data-URI prefix and
contains a comma, but the substring after the first comma (`"B\nC"`)
contains a newline, so `/,(.*)$/` fails to match and the service decodes
the whole string (3 bytes), not the after-comma substring (1 byte). -/
theorem uploadFile_comma_newline_cex :
    imageDataUriMatch "QQ,B\nC" = false ∧
    uploadNormalize (.str "QQ,B\nC")
      ≠ .ok (.buffer (nodeBase64Decode "B\nC".data)) ∧
    uploadNormalize (.str "QQ,B\nC")
      = .ok (.buffer (nodeBase64Decode "QQ,B\nC".data)) := by
  refine ⟨by decide, by decide, by decide⟩

theorem uploadFile_comma_split_needs_clean_suffix_witness :
    uploadNormalize (.str (String.mk (['Q', 'Q'] ++ ',' :: ['B', 'C'])))
      = .ok (.buffer (nodeBase64Decode ['B', 'C'])) :=
  uploadFile_comma_split_needs_clean_suffix.1 ['Q', 'Q'] ['B', 'C']
    (by decide)
    (fun l₁ l₂ h => by
      exfalso
      have hm : (',' : Char) ∈ l₁ ++ ',' :: l₂ :=
        List.mem_append.mpr (Or.inr (List.mem_cons_self _ _))
      rw [← h] at hm
      exact absurd hm (by decide))
    (by decide)

/-- **C3** (confirmed).  A non-string input with a truthy `path` is handed
to the storage upload as a read stream of that path, never as an
in-memory buffer. -/
theorem uploadFile_staged_path_streams (p : String) (hp : p ≠ "")
    (bn fileName contentType : String) :
    (uploadParamsOf bn (.obj p) fileName contentType).map UploadParams.body
      = .ok (.stream p) ∧
    ∀ bs, (uploadParamsOf bn (.obj p) fileName contentType).map
        UploadParams.body ≠ .ok (.buffer bs) := by
  have h := uploadNormalize_obj p hp
  refine ⟨by simp [uploadParamsOf, h, Except.map], fun bs => by
    simp [uploadParamsOf, h, Except.map]⟩

theorem uploadFile_staged_path_streams_witness :
    (uploadParamsOf "bucket" (.obj "tmp/a.png") "k" "image/png").map
        UploadParams.body = .ok (.stream "tmp/a.png") ∧
    ∀ bs, (uploadParamsOf "bucket" (.obj "tmp/a.png") "k" "image/png").map
        UploadParams.body ≠ .ok (.buffer bs) :=
  uploadFile_staged_path_streams "tmp/a.png" (by decide) "bucket" "k"
    "image/png"

/-- **C4** (amended).  Normalization is total on strings (always the
buffer variant; the empty string gives an empty buffer, not an error) and
on objects with truthy path (always the stream variant); but an object
whose `path` is falsy reaches `Buffer.from` with a non-string value and
raises a `TypeError` before the storage call, instead of degrading to
raw-base64 treatment. -/
theorem uploadNormalize_total_amended :
    (∀ s : String, uploadNormalize (.str s)
        = .ok (.buffer (nodeBase64Decode ((commaCapture s.data).getD
            s.data)))) ∧
    uploadNormalize (.str "") = .ok (.buffer []) ∧
    (∀ p : String, p ≠ "" → uploadNormalize (.obj p) = .ok (.stream p)) ∧
    uploadNormalize (.obj "") = .error bufferFromObjectTypeError :=
  ⟨uploadNormalize_str, by decide, uploadNormalize_obj, rfl⟩

/-- **C4** counterexample.  `uploadFile` on `{ path: "" }` raises the
`Buffer.from` `TypeError` before the storage call even though the backend
would succeed — the input is not degraded to raw-base64 treatment. -/
theorem uploadFile_empty_path_object_throws_cex :
    uploadFile "bucket" (.obj "") "k" "image/png"
        (fun _ => Except.ok "https://bucket/k")
      = .error bufferFromObjectTypeError := rfl

theorem uploadNormalize_total_amended_witness :
    uploadNormalize (.obj "a.png") = .ok (.stream "a.png") :=
  uploadNormalize_total_amended.2.2.1 "a.png" (by decide)

/-! ### Claims C5–C10: the operations and the notifier contract -/

/-- **C5** (confirmed).  Once normalization has produced a byte source,
`uploadFile` absorbs any backend error into the sentinel `false` (with the
error recorded) and never propagates a raw backend exception; on backend
success it returns `{ status: true, url: data.Location, fileName }`. -/
theorem uploadFile_absorbs_backend_errors
    (bn : String) (f : FileInput) (k ct : String)
    (beh : UploadParams → Except String String) (fs : FileStream)
    (hn : uploadNormalize f = Except.ok fs) :
    (∀ m, beh { bucket := bn, key := k, body := fs, contentType := ct }
        = Except.error m →
      uploadFile bn f k ct beh
        = .ok (.failure, [.addErrorMsg m "error" true, .isSuccess false])) ∧
    (∀ loc, beh { bucket := bn, key := k, body := fs, contentType := ct }
        = Except.ok loc →
      uploadFile bn f k ct beh
        = .ok (.success loc k,
            [.addSuccessMsg "File uploaded successfully." "success" true,
             .isSuccess true])) := by
  constructor
  · intro m hb
    simp [uploadFile, uploadParamsOf, hn, hb]
  · intro loc hb
    simp [uploadFile, uploadParamsOf, hn, hb]

theorem uploadFile_absorbs_backend_errors_witness :
    uploadFile "b" (.str "QUJD") "k" "ct" (fun _ => Except.error "boom")
      = .ok (.failure, [.addErrorMsg "boom" "error" true,
          .isSuccess false]) :=
  (uploadFile_absorbs_backend_errors "b" (.str "QUJD") "k" "ct"
    (fun _ => Except.error "boom")
    (FileStream.buffer (nodeBase64Decode "QUJD".data)) rfl).1 "boom" rfl

/-- **C6** (amended).  Upload and delete record exactly one message per
completion — a success message on success, an error message carrying the
backend's raw error text on failure — and set the success flag.  Presign
and fetch-as-encoded-string record exactly one error message (carrying the
backend's error text) on each failing completion — including fetch's
partial-success completion where the object fetch succeeds but the body
drain then fails — and record *no* message on success; they always set the
flag, which fetch sets twice (`true`, then `false`) on the drain-failure
completion.  The no-message-on-success behaviour refutes the original
"every operation records exactly one message" claim. -/
theorem operations_notifier_contract_amended :
    (∀ (bn : String) (f : FileInput) (k ct loc : String)
        (beh : UploadParams → Except String String) (fs : FileStream),
        uploadNormalize f = Except.ok fs →
        beh { bucket := bn, key := k, body := fs, contentType := ct }
          = Except.ok loc →
        ∃ tr, uploadFile bn f k ct beh = .ok (.success loc k, tr) ∧
          msgEvents tr
            = [.addSuccessMsg "File uploaded successfully." "success" true] ∧
          flagEvents tr = [true]) ∧
    (∀ (bn : String) (f : FileInput) (k ct m : String)
        (beh : UploadParams → Except String String) (fs : FileStream),
        uploadNormalize f = Except.ok fs →
        beh { bucket := bn, key := k, body := fs, contentType := ct }
          = Except.error m →
        ∃ tr, uploadFile bn f k ct beh = .ok (.failure, tr) ∧
          msgEvents tr = [.addErrorMsg m "error" true] ∧
          flagEvents tr = [false]) ∧
    (∀ (bn p : String) (e : Nat) (u : String)
        (beh : SignRequest → Except String String),
        beh (presignRequestOf bn p e) = Except.ok u →
        msgEvents (getPresignedUrlOfFile bn p e beh).2 = [] ∧
        flagEvents (getPresignedUrlOfFile bn p e beh).2 = [true]) ∧
    (∀ (bn p : String) (e : Nat) (m : String)
        (beh : SignRequest → Except String String),
        beh (presignRequestOf bn p e) = Except.error m →
        msgEvents (getPresignedUrlOfFile bn p e beh).2
          = [.addErrorMsg ("Could not retrieve file from S3: " ++ m)
              "error" true] ∧
        flagEvents (getPresignedUrlOfFile bn p e beh).2 = [false]) ∧
    (∀ k : String,
        msgEvents (deleteFile k (Except.ok ())).2
          = [.addSuccessMsg "File Deleted successfully." "success" true] ∧
        flagEvents (deleteFile k (Except.ok ())).2 = [true]) ∧
    (∀ k m : String,
        msgEvents (deleteFile k (Except.error m)).2
          = [.addErrorMsg m "error" true] ∧
        flagEvents (deleteFile k (Except.error m)).2 = [false]) ∧
    (∀ (k : String) (bs : List Nat),
        msgEvents (getFile k (Except.ok bs) (Except.ok ())).2 = [] ∧
        flagEvents (getFile k (Except.ok bs) (Except.ok ())).2 = [true]) ∧
    (∀ (k m : String) (drainBeh : Except String Unit),
        msgEvents (getFile k (Except.error m) drainBeh).2
          = [.addErrorMsg ("Could not retrieve file from S3: " ++ m)
              "error" true] ∧
        flagEvents (getFile k (Except.error m) drainBeh).2 = [false]) ∧
    (∀ (k : String) (bs : List Nat) (m : String),
        msgEvents (getFile k (Except.ok bs) (Except.error m)).2
          = [.addErrorMsg ("Could not retrieve file from S3: " ++ m)
              "error" true] ∧
        flagEvents (getFile k (Except.ok bs) (Except.error m)).2
          = [true, false]) := by
  refine ⟨?_, ?_, ?_, ?_, ?_, ?_, ?_, ?_, ?_⟩
  · intro bn f k ct loc beh fs hn hb
    exact ⟨[.addSuccessMsg "File uploaded successfully." "success" true,
            .isSuccess true],
      by simp [uploadFile, uploadParamsOf, hn, hb], rfl, rfl⟩
  · intro bn f k ct m beh fs hn hb
    exact ⟨[.addErrorMsg m "error" true, .isSuccess false],
      by simp [uploadFile, uploadParamsOf, hn, hb], rfl, rfl⟩
  · intro bn p e u beh hb
    exact ⟨by simp [getPresignedUrlOfFile, hb, msgEvents],
           by simp [getPresignedUrlOfFile, hb, flagEvents]⟩
  · intro bn p e m beh hb
    exact ⟨by simp [getPresignedUrlOfFile, hb, msgEvents],
           by simp [getPresignedUrlOfFile, hb, flagEvents]⟩
  · intro k
    exact ⟨rfl, rfl⟩
  · intro k m
    exact ⟨rfl, rfl⟩
  · intro k bs
    exact ⟨rfl, rfl⟩
  · intro k m drainBeh
    exact ⟨rfl, rfl⟩
  · intro k bs m
    exact ⟨rfl, rfl⟩

/-- **C6** counterexample.  A successful presign call records *no*
message at all (its trace has zero message events, not exactly one): the
success path of `getPresignedUrlOfFile` only sets the flag. -/
theorem getPresignedUrl_success_no_message_cex :
    msgEvents (getPresignedUrlOfFile "bucket" "k" 10
        (fun _ => Except.ok "https://u")).2 = [] ∧
    (msgEvents (getPresignedUrlOfFile "bucket" "k" 10
        (fun _ => Except.ok "https://u")).2).length ≠ 1 :=
  ⟨rfl, by decide⟩

theorem operations_notifier_contract_amended_witness :
    ∃ tr, uploadFile "b" (.str "QUJD") "k" "ct"
        (fun _ => Except.ok "https://u")
        = .ok (.success "https://u" "k", tr) ∧
      msgEvents tr
        = [.addSuccessMsg "File uploaded successfully." "success" true] ∧
      flagEvents tr = [true] :=
  operations_notifier_contract_amended.1 "b" (.str "QUJD") "k" "ct"
    "https://u" (fun _ => Except.ok "https://u")
    (FileStream.buffer (nodeBase64Decode "QUJD".data)) rfl rfl

/-- **C7** (confirmed).  `deleteFile` returns `true` exactly when the
backend delete call completes without error; on a backend error it
returns `false` and records an error message carrying the backend's
message text. -/
theorem deleteFile_success_iff_no_backend_error (fileName : String) :
    deleteFile fileName (Except.ok ())
      = (true,
         [.addSuccessMsg "File Deleted successfully." "success" true,
          .isSuccess true]) ∧
    ∀ m, deleteFile fileName (Except.error m)
      = (false, [.addErrorMsg m "error" true, .isSuccess false]) :=
  ⟨rfl, fun _ => rfl⟩

/-- **C8** (confirmed).  Against a backend modelled as a key-to-bytes map
that stores the uploaded byte source under the key, a successful
`uploadFile` of an inline (string) input followed by `getFile` of the same
key returns the base64 encoding of exactly the bytes the normalization
produced from the input. -/
theorem upload_then_getFile_roundtrip
    (bn s k ct loc : String) (st : Store) (params : UploadParams)
    (hp : uploadParamsOf bn (.str s) k ct = .ok params) :
    uploadFile bn (.str s) k ct (fun _ => Except.ok loc)
      = .ok (.success loc k,
          [.addSuccessMsg "File uploaded successfully." "success" true,
           .isSuccess true]) ∧
    getFile k (storeGetBeh (storePut st params (fun _ => [])) k)
        (Except.ok ())
      = (.content (base64Encode (params.body.bytes (fun _ => []))),
         [.isSuccess true]) ∧
    params.body
      = .buffer (nodeBase64Decode ((commaCapture s.data).getD s.data)) := by
  have hstr := uploadNormalize_str s
  simp only [uploadParamsOf, hstr, Except.ok.injEq] at hp
  subst hp
  refine ⟨by simp [uploadFile, uploadParamsOf, hstr], ?_, rfl⟩
  simp [getFile, storeGetBeh, storePut, storeGet, FileStream.bytes]

theorem upload_then_getFile_roundtrip_witness :
    uploadFile "b" (.str "QUJD") "k" "ct" (fun _ => Except.ok "https://u")
      = .ok (.success "https://u" "k",
          [.addSuccessMsg "File uploaded successfully." "success" true,
           .isSuccess true]) ∧
    getFile "k" (storeGetBeh (storePut []
        { bucket := "b", key := "k",
          body := .buffer (nodeBase64Decode "QUJD".data),
          contentType := "ct" } (fun _ => [])) "k") (Except.ok ())
      = (.content (base64Encode
            ((FileStream.buffer (nodeBase64Decode "QUJD".data)).bytes
              (fun _ => []))),
         [.isSuccess true]) ∧
    ({ bucket := "b", key := "k",
       body := .buffer (nodeBase64Decode "QUJD".data),
       contentType := "ct" } : UploadParams).body
      = .buffer (nodeBase64Decode ((commaCapture "QUJD".data).getD
          "QUJD".data)) :=
  upload_then_getFile_roundtrip "b" "QUJD" "k" "ct" "https://u" []
    { bucket := "b", key := "k",
      body := .buffer (nodeBase64Decode "QUJD".data), contentType := "ct" }
    rfl

/-- **C9** (confirmed).  A presign call without an explicit expiry issues
the signing request with `expiresIn` exactly 10 (the default), and a
caller-supplied expiry is passed through to the request unchanged; the
operation's result is the URL signed for exactly that request. -/
theorem presign_expiry_default_and_passthrough (bn path : String) :
    (presignRequestOf bn path presignDefaultExpiry).expiresIn = 10 ∧
    (∀ e : Nat, (presignRequestOf bn path e).expiresIn = e) ∧
    (∀ (e : Nat) (beh : SignRequest → Except String String) (u : String),
        beh (presignRequestOf bn path e) = Except.ok u →
        (getPresignedUrlOfFile bn path e beh).1 = .url u) := by
  refine ⟨rfl, fun _ => rfl, ?_⟩
  intro e beh u hb
  simp [getPresignedUrlOfFile, hb]

theorem presign_expiry_default_and_passthrough_witness :
    (getPresignedUrlOfFile "b" "k" presignDefaultExpiry
        (fun _ => Except.ok "https://u")).1 = .url "https://u" :=
  (presign_expiry_default_and_passthrough "b" "k").2.2 presignDefaultExpiry
    (fun _ => Except.ok "https://u") "https://u" rfl

/-- **C10** counterexample.  When the object fetch succeeds but the body
drain then fails, `getFile` returns normally (with the sentinel `false`)
yet passes a value to the success flag twice — `true` before the drain,
`false` in the catch — so the flag is not set exactly once. -/
theorem getFile_drain_failure_double_flag_cex :
    flagEvents (getFile "k" (Except.ok [65])
        (Except.error "stream reset")).2 = [true, false] ∧
    (flagEvents (getFile "k" (Except.ok [65])
        (Except.error "stream reset")).2).length ≠ 1 ∧
    (getFile "k" (Except.ok [65]) (Except.error "stream reset")).1
      = .failure :=
  ⟨rfl, by decide, rfl⟩

/-- **C10** (amended).  Upload, presign and delete pass exactly one value
to the notifier's `isSuccess` flag per normally-returning invocation, and
that value is `true` exactly when the returned result is not the failure
sentinel `false`.  `getFile` does so too when the send fails or when both
send and drain succeed; but on the completion where the object fetch
succeeds and the body drain then fails, the flag is set twice (`true`,
then `false`), the final value matching the failure result. -/
theorem operations_set_success_flag_amended :
    (∀ (bn : String) (f : FileInput) (k ct : String)
        (beh : UploadParams → Except String String) (fs : FileStream),
        uploadNormalize f = Except.ok fs →
        ∃ r tr, uploadFile bn f k ct beh = .ok (r, tr) ∧
          flagEvents tr = [r.isSuccessResult]) ∧
    (∀ (bn p : String) (e : Nat) (beh : SignRequest → Except String String),
        flagEvents (getPresignedUrlOfFile bn p e beh).2
          = [(getPresignedUrlOfFile bn p e beh).1.isSuccessResult]) ∧
    (∀ (k : String) (beh : Except String Unit),
        flagEvents (deleteFile k beh).2 = [(deleteFile k beh).1]) ∧
    (∀ (k m : String) (drainBeh : Except String Unit),
        flagEvents (getFile k (Except.error m) drainBeh).2
          = [(getFile k (Except.error m) drainBeh).1.isSuccessResult]) ∧
    (∀ (k : String) (bs : List Nat),
        flagEvents (getFile k (Except.ok bs) (Except.ok ())).2
          = [(getFile k (Except.ok bs) (Except.ok ())).1.isSuccessResult]) ∧
    (∀ (k : String) (bs : List Nat) (m : String),
        flagEvents (getFile k (Except.ok bs) (Except.error m)).2
          = [true, false] ∧
        (getFile k (Except.ok bs) (Except.error m)).1 = .failure) := by
  refine ⟨?_, ?_, ?_, ?_, ?_, ?_⟩
  · intro bn f k ct beh fs hn
    cases hb : beh (UploadParams.mk bn k fs ct) with
    | ok loc =>
        exact ⟨.success loc k,
          [.addSuccessMsg "File uploaded successfully." "success" true,
           .isSuccess true],
          by simp [uploadFile, uploadParamsOf, hn, hb], rfl⟩
    | error m =>
        exact ⟨.failure, [.addErrorMsg m "error" true, .isSuccess false],
          by simp [uploadFile, uploadParamsOf, hn, hb], rfl⟩
  · intro bn p e beh
    cases hb : beh (presignRequestOf bn p e) <;>
      simp [getPresignedUrlOfFile, hb, flagEvents,
        PresignResult.isSuccessResult]
  · intro k beh
    cases beh <;> rfl
  · intro k m drainBeh
    rfl
  · intro k bs
    rfl
  · intro k bs m
    exact ⟨rfl, rfl⟩

theorem operations_set_success_flag_amended_witness :
    ∃ r tr, uploadFile "b" (.str "QUJD") "k" "ct"
        (fun _ => Except.ok "https://u") = .ok (r, tr) ∧
      flagEvents tr = [r.isSuccessResult] :=
  operations_set_success_flag_amended.1 "b" (.str "QUJD") "k" "ct"
    (fun _ => Except.ok "https://u")
    (FileStream.buffer (nodeBase64Decode "QUJD".data)) rfl

end BucketProvider
